import Mathlib

/-!
Verification of the Papa Dont Preach product-page extraction script
(`parser.py` and `clean_csv.py`) against its specification.

Modelling conventions:
* Python strings are Lean `String`s; character-level sanitisation is stated
  on the underlying `List Char` (a Python `str` is a sequence of code points).
* A Python dict produced by the script is an association list whose keys are
  unique; `getField` models `dict.get(key, '')` (and the csv writer default
  `restval`, which also yields an empty field).
* Results of external library calls (the `re` regex searches and the
  BeautifulSoup queries) are recorded as fields of the `Page` structure:
  each field holds exactly the value the corresponding query in the source
  returns on that page (`none` when the pattern or tag is absent).
* Files are lists of lines, each line a `List Char` without its terminator.
* The per-record fresh token `uuid.uuid4()` is an explicit `id2` argument.
-/

/-- ASCII double quote, the first and third character removed by
`remove_quotes` (parser.py line 324) and by the line cleaning
(parser.py line 354, clean_csv.py line 23).  In the source all three
`.replace` patterns are ASCII; no non-ASCII quote occurs anywhere. -/
def quoteCh : Char := Char.ofNat 34

/-- ASCII apostrophe, the second character removed by `remove_quotes`. -/
def apostCh : Char := Char.ofNat 39

/-- Unicode right double quotation mark U+201D.  It does not occur in the
source of either file; it is used here to state claims about it. -/
def rdqCh : Char := Char.ofNat 0x201D

/-- Semicolon, the csv delimiter of `save_to_csv` (parser.py line 386). -/
def semiCh : Char := Char.ofNat 59

/-- Backslash, the csv escapechar of `save_to_csv` (parser.py line 386). -/
def bslashCh : Char := Char.ofNat 92

/-- Character-level model of the chain
`.replace(QUOTE, '').replace(APOSTROPHE, '').replace(QUOTE, '')` of
parser.py lines 324/354 and clean_csv.py line 23: three successive
removals of a single character (the third pattern is again the ASCII
double quote, identical to the first). -/
def stripQuoteChars (l : List Char) : List Char :=
  ((l.filter (fun c => c ≠ quoteCh)).filter (fun c => c ≠ apostCh)).filter
    (fun c => c ≠ quoteCh)

/-- Embedding of `remove_quotes` (parser.py lines 318-325) on strings. -/
def removeQuotes (s : String) : String := String.mk (stripQuoteChars s.data)

/-- A produced record: a Python dict from column names to string values,
modelled as an association list with unique keys in insertion order. -/
abbrev Record := List (String × String)

/-- Embedding of `dict.get(key, '')` on a record (first binding wins;
the dicts built by the script have unique keys). -/
def getField : Record → String → String
  | [], _ => ""
  | (k, v) :: rest, key => if k = key then v else getField rest key

/-- Embedding of `clean_product_data` (parser.py lines 328-336). -/
def cleanProductData (r : Record) : Record :=
  r.map (fun kv => (kv.1, removeQuotes kv.2))

/-- Embedding of the per-line body of `clean_csv_file`
(parser.py line 354 and identically clean_csv.py line 23). -/
def cleanLine (l : List Char) : List Char := stripQuoteChars l

/-- Embedding of `clean_csv_file` on file content (parser.py lines 339-363
and the identical clean_csv.py lines 7-32): every line of the file is
cleaned, and the lines are written back in order. -/
def cleanCsvFile (content : List (List Char)) : List (List Char) :=
  content.map cleanLine

/-- Characters escaped by Python `csv` with `quoting=csv.QUOTE_NONE`,
`delimiter=';'`, `escapechar='\\'` and the default quotechar and
lineterminator: the delimiter, the escapechar, the quotechar `"`,
and the two lineterminator characters CR and LF. -/
def csvSpecials : List Char :=
  [semiCh, bslashCh, quoteCh, Char.ofNat 13, Char.ofNat 10]

/-- Model of the csv writer field encoding under `QUOTE_NONE`: each special
character is preceded by the escapechar, all others pass through. -/
def escapeQuoteNone (l : List Char) : List Char :=
  l.flatMap (fun c => if c ∈ csvSpecials then [bslashCh, c] else [c])

/-- The fixed column schema `fieldnames` of `save_to_csv`
(parser.py lines 374-378). -/
def fieldnames : List String :=
  ["URL", "ID", "Name", "Brand", "Article", "Gender",
   "Image2", "Ext Images", "Description", "Sizes", "Color",
   "Category", "ID2", "Combine"]

/-- One data row as written by `writer.writerow` (parser.py line 397):
the record's value for each schema column in order, csv-escaped and
joined by the semicolon delimiter. -/
def rowOf (r : Record) : List Char :=
  List.intercalate [semiCh] (fieldnames.map (fun k => escapeQuoteNone (getField r k).data))

/-- The header row written by `writer.writeheader` (parser.py line 390). -/
def headerLine : List Char :=
  List.intercalate [semiCh] (fieldnames.map (fun k => escapeQuoteNone k.data))

/-- Embedding of `save_to_csv` (parser.py lines 366-402) as a function on
file content.  `existing` is the content of the target file (`none` when the
file does not exist).  An empty record list returns early leaving the file
untouched; otherwise rows are written for the truthy records (non-`None`
and non-empty dicts), after a fresh header unless appending to an existing
file, and the final `clean_csv_file` call cleans every line of the result. -/
def saveToCsv (existing : Option (List (List Char))) (records : List (Option Record))
    (append : Bool) : Option (List (List Char)) :=
  if records = [] then existing
  else
    let rows := ((records.filterMap id).filter (fun r => r ≠ [])).map
      (fun r => rowOf (cleanProductData r))
    let content :=
      match existing, append with
      | some old, true => old ++ rows
      | _, _ => headerLine :: rows
    some (cleanCsvFile content)

/-- A variant entry as built by `extract_product_data_regex`
(parser.py lines 115-118): a `public_title` label and a `sku`. -/
structure Variant where
  public_title : String
  sku : String
deriving DecidableEq

/-- The `kiwi_data` dict handed to `process_kiwi_data`: each key is present
(`some`) or absent (`none`), matching the `.get` defaults in the source. -/
structure KiwiData where
  product : Option String
  title : Option String
  vendor : Option String
  type : Option String
  images : Option (List String)
  variants : Option (List Variant)

/-- One page, abstracted to the results of the queries the source performs
on it.  Each field holds exactly what the corresponding regex search or
BeautifulSoup query returns for this page:
* `hasKiwiBlock`: whether the `KiwiSizing.data = {...};` regex
  (parser.py line 48) matches;
* `savedFromUrl`: group 1 of the `saved from url=(...)` regex
  (lines 58 and 131), `none` when it does not match;
* `canonicalHref`: for the canonical link element (lines 62-64 and 136-138),
  `none` when the tag is absent, otherwise `some` of its href attribute
  (the empty string when the attribute is missing, per `.get('href', '')`);
* `productField`/`titleField`/`vendorField`/`typeField`: group 1 of the
  corresponding literal-key regexes (lines 79-96);
* `imagesField`: the quoted strings found inside the `images:[...]` block
  (lines 99-106), before the backslash-slash unescaping, `none` when the
  block regex does not match;
* `variantsField`: the (public_title, sku) pairs found inside the
  `variants:[...]` block (lines 109-118);
* `swymDescription`: the text of the SwymProductInfo `description` field
  after tag stripping with whitespace joining (lines 203-215), `none` when
  the blob is absent or fails to parse;
* `metaDescription`/`ogDescription`: for the meta description and
  og:description tags (lines 219-227), `none` when the tag is absent,
  otherwise `some` of its content attribute (empty when missing). -/
structure Page where
  hasKiwiBlock : Bool
  savedFromUrl : Option String
  canonicalHref : Option String
  productField : Option String
  titleField : Option String
  vendorField : Option String
  typeField : Option String
  imagesField : Option (List String)
  variantsField : List (String × String)
  swymDescription : Option String
  metaDescription : Option String
  ogDescription : Option String

/-- A page on which every query comes back empty. -/
def emptyPage : Page :=
  { hasKiwiBlock := false, savedFromUrl := none, canonicalHref := none,
    productField := none, titleField := none, vendorField := none,
    typeField := none, imagesField := none, variantsField := [],
    swymDescription := none, metaDescription := none, ogDescription := none }

/-- The page-URL fallback chain of parser.py lines 131-140: the
`saved from url` marker, then the canonical link href, then empty. -/
def resolveUrlFromPage (page : Page) : String :=
  match page.savedFromUrl with
  | some u => u
  | none =>
    match page.canonicalHref with
    | some h => h
    | none => ""

/-- The `if not product_url:` guard of parser.py line 130: a `None` or
empty caller-supplied URL is replaced by the page fallback chain. -/
def resolveUrl (productUrl : Option String) (page : Page) : String :=
  match productUrl with
  | some u => if u = "" then resolveUrlFromPage page else u
  | none => resolveUrlFromPage page

/-- Embedding of the image URL rewriting applied inline to each consumed
image (parser.py lines 166-171, repeated at 179-187 and 192-196):
protocol-relative URLs get the `https:` scheme, site-relative paths get
the fixed site origin, anything else passes through.  `startswith` is
modelled on the character sequence. -/
def normalizeImageUrl (url : String) : String :=
  if "//".data.isPrefixOf url.data then "https:" ++ url
  else if "/".data.isPrefixOf url.data then "https://www.papadontpreach.com" ++ url
  else url

/-- The `image2` computation of parser.py lines 160-171: the normalized
first image, or empty when there are no images. -/
def computeImage2 (images : List String) : String :=
  match images with
  | [] => ""
  | first :: _ => normalizeImageUrl first

/-- The `ext_images` computation of parser.py lines 173-198: with three or
more images the normalized 2nd and 3rd comma-joined, with exactly two the
normalized 2nd alone, otherwise empty. -/
def computeExtImages (images : List String) : String :=
  match images with
  | _ :: i2 :: i3 :: _ => normalizeImageUrl i2 ++ "," ++ normalizeImageUrl i3
  | [_, i2] => normalizeImageUrl i2
  | _ => ""

/-- The description fallback chain of parser.py lines 200-227: the stripped
SwymProductInfo description when non-empty, else the meta description tag
content when the tag exists and its content is non-empty, else the
og:description tag content when that tag exists, else empty. -/
def descriptionOf (page : Page) : String :=
  let d0 := match page.swymDescription with
    | some s => s
    | none => ""
  let d1 := if d0 = "" then
      (match page.metaDescription with
       | some c => c
       | none => d0)
    else d0
  if d1 = "" then
    (match page.ogDescription with
     | some c => c
     | none => d1)
  else d1

/-- The sizes loop of parser.py lines 230-235: labels are appended in
order when they are non-empty (`if size`) and not already collected
(`size not in sizes`). -/
def buildSizes (variants : List Variant) : List String :=
  variants.foldl
    (fun sizes v =>
      if v.public_title ≠ "" ∧ v.public_title ∉ sizes then sizes ++ [v.public_title]
      else sizes)
    []

/-- The `sizes_str` expression of parser.py line 237. -/
def sizesStrOf (variants : List Variant) : String :=
  let sizes := buildSizes variants
  if sizes = [] then "" else String.intercalate "," sizes

/-- The `article` computation of parser.py lines 240-242: the sku of the
first variant, or empty when there are none. -/
def articleOf (variants : List Variant) : String :=
  match variants with
  | [] => ""
  | v :: _ => v.sku

/-- Embedding of `process_kiwi_data` (parser.py lines 126-267).  The
page stands for both `html_content` and `soup`; `id2` is the fresh
`uuid.uuid4()` token.  The result is the returned dict literal. -/
def processKiwiData (kiwiData : KiwiData) (page : Page) (productUrl : Option String)
    (id2 : String) : Record :=
  let url := resolveUrl productUrl page
  let title := kiwiData.title.getD ""
  let brand := kiwiData.vendor.getD ""
  let category := kiwiData.type.getD ""
  let productId := kiwiData.product.getD ""
  let images := kiwiData.images.getD []
  let variants := kiwiData.variants.getD []
  [("URL", url), ("ID", productId), ("Name", title), ("Brand", brand),
   ("Article", articleOf variants), ("Gender", ""),
   ("Image2", computeImage2 images), ("Ext Images", computeExtImages images),
   ("Description", descriptionOf page), ("Sizes", sizesStrOf variants),
   ("Color", ""), ("Category", category), ("ID2", id2), ("Combine", "")]

/-- Embedding of `extract_product_data_regex` (parser.py lines 72-123):
the kiwi dict is assembled from the independent regex results (image
entries get the backslash-slash unescaping of line 105, variant pairs
become dicts) and handed to `process_kiwi_data`. -/
def extractProductDataRegex (page : Page) (productUrl : Option String)
    (id2 : String) : Record :=
  let kd : KiwiData :=
    { product := page.productField, title := page.titleField,
      vendor := page.vendorField, type := page.typeField,
      images := page.imagesField.map (fun ls => ls.map (fun u => u.replace "\\/" "/")),
      variants := some (page.variantsField.map
        (fun pv => { public_title := pv.1, sku := pv.2 })) }
  processKiwiData kd page productUrl id2

/-- Embedding of `extract_product_data` (parser.py lines 42-69): when the
`KiwiSizing.data` regex does not match, the function returns `None`;
otherwise a `None` or empty caller URL is recomputed from the page and the
regex extraction runs, always producing a record. -/
def extractProductData (page : Page) (productUrl : Option String)
    (id2 : String) : Option Record :=
  if page.hasKiwiBlock then
    let productUrl2 : Option String :=
      match productUrl with
      | some u =>
        if u = "" then
          (match page.savedFromUrl with
           | some w => some w
           | none =>
             match page.canonicalHref with
             | some h => some h
             | none => none)
        else some u
      | none =>
        match page.savedFromUrl with
        | some w => some w
        | none =>
          match page.canonicalHref with
          | some h => some h
          | none => none
    some (extractProductDataRegex page productUrl2 id2)
  else none

/-- Python dict assignment `product_data['URL'] = url` (parser.py
line 313): replace the value of an existing key, otherwise add it. -/
def setUrl (r : Record) (url : String) : Record :=
  if (getField r "URL") = "" ∧ (r.lookup "URL").isNone then r ++ [("URL", url)]
  else r.map (fun kv => if kv.1 = "URL" then (kv.1, url) else kv)

/-- Embedding of `parse_url` (parser.py lines 298-315): fetch the page
(`fetch` stands for `download_html`, `none` on network failure), extract,
then force the URL column to the requested URL when it came back falsy. -/
def parseUrl (fetch : String → Option Page) (url : String) (id2 : String) :
    Option Record :=
  match fetch url with
  | none => none
  | some page =>
    match extractProductData page (some url) id2 with
    | none => none
    | some r => some (if r ≠ [] ∧ getField r "URL" = "" then setUrl r url else r)

/-- The accumulation loop of `main` (parser.py lines 443-462): one
`parse_url` result per URL in input order, `none` kept as placeholder for
failures; `ids` supplies the fresh token of the i-th iteration. -/
def mainProducts (fetch : String → Option Page) (ids : Nat → String)
    (urls : List String) : List (Option Record) :=
  urls.enum.map (fun iu => parseUrl fetch iu.2 (ids iu.1))

/-- The batch-write tail of `main` (parser.py lines 464-469): when any URL
was processed, the accumulated list is written with `append=False`;
`existing` is the prior content of the output file (overwritten). -/
def mainFile (fetch : String → Option Page) (ids : Nat → String)
    (urls : List String) (existing : Option (List (List Char))) :
    Option (List (List Char)) :=
  let allProducts := mainProducts fetch ids urls
  if allProducts = [] then existing
  else saveToCsv existing allProducts false

/-- Specification-side helper: first-occurrence-preserving removal of
duplicates, with `seen` the labels already emitted. -/
def firstDedupAux : List String → List String → List String
  | [], _ => []
  | x :: xs, seen =>
    if x ∈ seen then firstDedupAux xs seen else x :: firstDedupAux xs (x :: seen)

/-- Specification-side definition (from the words of the spec): duplicates
removed, first-occurrence order preserved. -/
def firstDedup (l : List String) : List String := firstDedupAux l []

/-- Specification-side definition (from the words of the spec): the
comma-join of the variant labels with duplicates removed, order
preserved — with no further filtering. -/
def specSizes (labels : List String) : String :=
  String.intercalate "," (firstDedup labels)

/-- Specification-side definition (from the words of the spec): the first
non-empty string in the list, or empty. -/
def specFirstNonEmpty (xs : List String) : String :=
  (xs.find? (fun s => s ≠ "")).getD ""

/-- A page whose only successful query is the data-block regex. -/
def kiwiPage : Page := { emptyPage with hasKiwiBlock := true }

/-- A kiwi dict with every key absent. -/
def kdNone : KiwiData :=
  { product := none, title := none, vendor := none, type := none,
    images := none, variants := none }

/-- A kiwi dict with four images, concrete input for the image claims. -/
def kdImagesEx : KiwiData :=
  { kdNone with images := some ["//cdn.x/a.jpg", "/b.jpg", "c.jpg", "d.jpg"] }

/-- A variant list containing an empty label between two distinct ones. -/
def kdVariantsCx : KiwiData :=
  { kdNone with variants := some [⟨"A", "1"⟩, ⟨"", "2"⟩, ⟨"B", "3"⟩] }

/-- The variant list of the specification's worked example. -/
def kdVariantsW : KiwiData :=
  { kdNone with variants := some [⟨"S", "111"⟩, ⟨"M", "111"⟩, ⟨"S", "222"⟩] }

/-- A record whose Name field contains the Unicode right double quote. -/
def recRdq : Record :=
  processKiwiData { kdNone with title := some "a”b" } emptyPage none "t"

/-- A record whose Name field contains an ASCII double quote and an
ASCII apostrophe. -/
def recQuotes : Record :=
  processKiwiData { kdNone with title := some "a\"b\x27c" } emptyPage none "t"

/-- A fetcher on which every download fails. -/
def fetchNone : String → Option Page := fun _ => none

/-- A constant fresh-token supply. -/
def idsConst : Nat → String := fun _ => "t"

/-! Helper lemmas relating record lookups to the per-field computations. -/

lemma getField_pkd_url (kd : KiwiData) (page : Page) (u : Option String) (i : String) :
    getField (processKiwiData kd page u i) "URL" = resolveUrl u page := rfl

lemma getField_pkd_image2 (kd : KiwiData) (page : Page) (u : Option String) (i : String) :
    getField (processKiwiData kd page u i) "Image2" = computeImage2 (kd.images.getD []) := rfl

lemma getField_pkd_extImages (kd : KiwiData) (page : Page) (u : Option String) (i : String) :
    getField (processKiwiData kd page u i) "Ext Images" = computeExtImages (kd.images.getD []) := rfl

lemma getField_pkd_description (kd : KiwiData) (page : Page) (u : Option String) (i : String) :
    getField (processKiwiData kd page u i) "Description" = descriptionOf page := rfl

lemma getField_pkd_sizes (kd : KiwiData) (page : Page) (u : Option String) (i : String) :
    getField (processKiwiData kd page u i) "Sizes" = sizesStrOf (kd.variants.getD []) := rfl

lemma getField_pkd_article (kd : KiwiData) (page : Page) (u : Option String) (i : String) :
    getField (processKiwiData kd page u i) "Article" = articleOf (kd.variants.getD []) := rfl

/-- C1: every record produced by `process_kiwi_data` carries exactly the 14
schema keys URL, ID, Name, Brand, Article, Gender, Image2, Ext Images,
Description, Sizes, Color, Category, ID2, Combine, in this order, for every
input field mapping, page and caller URL; missing source data only empties
values, it never removes a column. -/
theorem c1_record_has_exactly_the_14_keys (kd : KiwiData) (page : Page)
    (u : Option String) (i : String) :
    (processKiwiData kd page u i).map Prod.fst = fieldnames := rfl

/-- C3: image URL normalization: a string starting with two slashes gets the
scheme prefixed, a string starting with a single slash gets the fixed site
origin prefixed, and any other string passes through unchanged. -/
theorem c3_image_url_normalization (s : String) :
    ("//".data.isPrefixOf s.data = true → normalizeImageUrl s = "https:" ++ s) ∧
    ("//".data.isPrefixOf s.data = false → "/".data.isPrefixOf s.data = true →
      normalizeImageUrl s = "https://www.papadontpreach.com" ++ s) ∧
    ("//".data.isPrefixOf s.data = false → "/".data.isPrefixOf s.data = false →
      normalizeImageUrl s = s) := by
  refine ⟨fun h => ?_, fun h1 h2 => ?_, fun h1 h2 => ?_⟩ <;>
    simp [normalizeImageUrl, *]

/-- Witness for C3 at the specification's three worked examples. -/
theorem c3_image_url_normalization_witness :
    normalizeImageUrl "//cdn.x/y.jpg" = "https://cdn.x/y.jpg" ∧
    normalizeImageUrl "/p/y.jpg" = "https://www.papadontpreach.com/p/y.jpg" ∧
    normalizeImageUrl "https://cdn.x/y.jpg" = "https://cdn.x/y.jpg" := by
  refine ⟨?_, ?_, ?_⟩
  · rw [(c3_image_url_normalization "//cdn.x/y.jpg").1 rfl]; decide
  · rw [(c3_image_url_normalization "/p/y.jpg").2.1 rfl rfl]; decide
  · rw [(c3_image_url_normalization "https://cdn.x/y.jpg").2.2 rfl rfl]

/-- C5: when the `KiwiSizing.data` block regex does not match,
`extract_product_data` returns no mapping at all; whenever it matches, a
record mapping is produced. -/
theorem c5_no_data_block_means_none (page : Page) (u : Option String) (i : String) :
    (page.hasKiwiBlock = false → extractProductData page u i = none) ∧
    (page.hasKiwiBlock = true → ∃ r, extractProductData page u i = some r) := by
  constructor
  · intro h; simp [extractProductData, h]
  · intro h
    have hs : (extractProductData page u i).isSome = true := by
      simp [extractProductData, h]
    exact Option.isSome_iff_exists.mp hs

/-- Witness for C5: a page without the data block yields nothing, a page
with it yields a record. -/
theorem c5_no_data_block_means_none_witness :
    extractProductData emptyPage none "t" = none ∧
    (extractProductData kiwiPage none "t").isSome = true := by
  constructor
  · exact (c5_no_data_block_means_none emptyPage none "t").1 rfl
  · obtain ⟨r, hr⟩ := (c5_no_data_block_means_none kiwiPage none "t").2 rfl
    rw [hr]; rfl

/-- C2: the record builder consumes only the first three images, each after
URL normalization: one image fills `Image2` and leaves `Ext Images` empty,
two images put the second alone into `Ext Images`, three or more put the
second and third comma-joined into `Ext Images` and every later entry is
discarded. -/
theorem c2_only_first_three_images (kd : KiwiData) (page : Page)
    (u : Option String) (i : String) :
    (∀ a, kd.images = some [a] →
      getField (processKiwiData kd page u i) "Image2" = normalizeImageUrl a ∧
      getField (processKiwiData kd page u i) "Ext Images" = "") ∧
    (∀ a b, kd.images = some [a, b] →
      getField (processKiwiData kd page u i) "Image2" = normalizeImageUrl a ∧
      getField (processKiwiData kd page u i) "Ext Images" = normalizeImageUrl b) ∧
    (∀ a b c rest, kd.images = some (a :: b :: c :: rest) →
      getField (processKiwiData kd page u i) "Image2" = normalizeImageUrl a ∧
      getField (processKiwiData kd page u i) "Ext Images" =
        normalizeImageUrl b ++ "," ++ normalizeImageUrl c) := by
  refine ⟨fun a h => ⟨?_, ?_⟩, fun a b h => ⟨?_, ?_⟩, fun a b c rest h => ⟨?_, ?_⟩⟩ <;>
    first
      | (rw [getField_pkd_image2, h]; rfl)
      | (rw [getField_pkd_extImages, h]; rfl)

/-- Witness for C2 on a four-image list: the fourth image is dropped and
the first three are consumed after normalization. -/
theorem c2_only_first_three_images_witness :
    getField (processKiwiData kdImagesEx emptyPage none "t") "Image2" =
      "https://cdn.x/a.jpg" ∧
    getField (processKiwiData kdImagesEx emptyPage none "t") "Ext Images" =
      "https://www.papadontpreach.com/b.jpg,c.jpg" := by
  have h := (c2_only_first_three_images kdImagesEx emptyPage none "t").2.2
    "//cdn.x/a.jpg" "/b.jpg" "c.jpg" ["d.jpg"] rfl
  exact ⟨h.1.trans (by decide), h.2.trans (by decide)⟩

/-! Helper lemmas for the sizes deduplication loop. -/

lemma firstDedupAux_congr (l : List String) : ∀ s t : List String,
    (∀ a, a ∈ s ↔ a ∈ t) → firstDedupAux l s = firstDedupAux l t := by
  induction l with
  | nil => intro s t _; rfl
  | cons x xs ih =>
    intro s t h
    by_cases hx : x ∈ s
    · simp only [firstDedupAux, if_pos hx, if_pos ((h x).mp hx)]
      exact ih s t h
    · have hx2 : x ∉ t := fun hmem => hx ((h x).mpr hmem)
      simp only [firstDedupAux, if_neg hx, if_neg hx2]
      exact congrArg (List.cons x)
        (ih (x :: s) (x :: t) (fun a => by simp [List.mem_cons, h a]))

lemma foldl_dedup (l : List String) : ∀ acc : List String,
    l.foldl (fun sizes s => if s ∉ sizes then sizes ++ [s] else sizes) acc
      = acc ++ firstDedupAux l acc := by
  induction l with
  | nil => intro acc; simp [firstDedupAux]
  | cons x xs ih =>
    intro acc
    by_cases hx : x ∈ acc
    · rw [List.foldl_cons, if_neg (not_not_intro hx)]
      simp only [firstDedupAux, if_pos hx]
      exact ih acc
    · rw [List.foldl_cons, if_pos hx]
      simp only [firstDedupAux, if_neg hx]
      rw [ih (acc ++ [x]),
        firstDedupAux_congr xs (acc ++ [x]) (x :: acc)
          (fun a => by simp [List.mem_append, List.mem_cons, or_comm]),
        List.append_assoc]
      rfl

lemma buildSizesAux (vs : List Variant) : ∀ acc : List String,
    vs.foldl
      (fun sizes v =>
        if v.public_title ≠ "" ∧ v.public_title ∉ sizes then sizes ++ [v.public_title]
        else sizes) acc
      = ((vs.map Variant.public_title).filter (fun s => s ≠ "")).foldl
          (fun sizes s => if s ∉ sizes then sizes ++ [s] else sizes) acc := by
  induction vs with
  | nil => intro acc; rfl
  | cons v vt ih =>
    intro acc
    by_cases hv : v.public_title = ""
    · rw [List.foldl_cons, if_neg (by simp [hv])]
      simp only [List.map_cons, List.filter_cons, hv]
      simpa using ih acc
    · by_cases hm : v.public_title ∈ acc
      · rw [List.foldl_cons, if_neg (by simp [hm])]
        simp only [List.map_cons, List.filter_cons]
        rw [if_pos (by simp [hv]), List.foldl_cons, if_neg (not_not_intro hm)]
        exact ih acc
      · rw [List.foldl_cons, if_pos ⟨hv, hm⟩]
        simp only [List.map_cons, List.filter_cons]
        rw [if_pos (by simp [hv]), List.foldl_cons, if_pos hm]
        exact ih (acc ++ [v.public_title])

lemma buildSizes_eq (vs : List Variant) :
    buildSizes vs = firstDedup ((vs.map Variant.public_title).filter (fun s => s ≠ "")) := by
  unfold buildSizes firstDedup
  rw [buildSizesAux vs [], foldl_dedup]
  simp

lemma sizesStrOf_eq (vs : List Variant) :
    sizesStrOf vs = String.intercalate "," (buildSizes vs) := by
  unfold sizesStrOf
  by_cases h : buildSizes vs = []
  · rw [if_pos h, h]; rfl
  · rw [if_neg h]

/-- C4 (amended): for a variants list, `Sizes` is the comma-join of the
non-empty variant labels with duplicates removed in first-occurrence order
(the builder skips variants whose label is empty), `Article` is the sku of
the first variant, and an empty variants list empties both columns. -/
theorem c4_sizes_and_article (kd : KiwiData) (page : Page) (u : Option String)
    (i : String) (vs : List Variant) (h : kd.variants = some vs) :
    getField (processKiwiData kd page u i) "Sizes" =
      String.intercalate ","
        (firstDedup ((vs.map Variant.public_title).filter (fun s => s ≠ ""))) ∧
    (∀ v vt, vs = v :: vt → getField (processKiwiData kd page u i) "Article" = v.sku) ∧
    (vs = [] → getField (processKiwiData kd page u i) "Sizes" = "" ∧
      getField (processKiwiData kd page u i) "Article" = "") := by
  refine ⟨?_, ?_, ?_⟩
  · rw [getField_pkd_sizes, h]
    show sizesStrOf vs = _
    rw [sizesStrOf_eq, buildSizes_eq]
  · intro v vt hv
    rw [getField_pkd_article, h, hv]
    rfl
  · intro hv
    refine ⟨?_, ?_⟩
    · rw [getField_pkd_sizes, h, hv]; rfl
    · rw [getField_pkd_article, h, hv]; rfl

/-- C4 counterexample: on the variants (A,1), (empty label,2), (B,3) the
builder produces Sizes "A,B", while the claim's label-dedup-join predicts
"A,,B": the empty label is skipped, not joined. -/
theorem c4_counterexample :
    getField (processKiwiData kdVariantsCx emptyPage none "t") "Sizes" = "A,B" ∧
    specSizes ((kdVariantsCx.variants.getD []).map Variant.public_title) = "A,,B" ∧
    ("A,B" : String) ≠ "A,,B" := ⟨rfl, rfl, by decide⟩

/-- Witness for C4 at the specification's worked example: variants
(S,111), (M,111), (S,222) give Sizes "S,M" and Article "111". -/
theorem c4_sizes_and_article_witness :
    getField (processKiwiData kdVariantsW emptyPage none "t") "Sizes" = "S,M" ∧
    getField (processKiwiData kdVariantsW emptyPage none "t") "Article" = "111" := by
  have h := c4_sizes_and_article kdVariantsW emptyPage none "t"
    [⟨"S", "111"⟩, ⟨"M", "111"⟩, ⟨"S", "222"⟩] rfl
  exact ⟨h.1.trans (by decide), h.2.1 ⟨"S", "111"⟩ [⟨"M", "111"⟩, ⟨"S", "222"⟩] rfl⟩

/-! Helper lemma for the description fallback chain. -/

lemma descriptionOf_eq (page : Page) :
    descriptionOf page = specFirstNonEmpty [page.swymDescription.getD "",
      page.metaDescription.getD "", page.ogDescription.getD ""] := by
  unfold descriptionOf specFirstNonEmpty
  rcases page.swymDescription with _ | s <;>
    rcases page.metaDescription with _ | m <;>
      rcases page.ogDescription with _ | o <;>
        simp only [Option.getD_some, Option.getD_none, List.find?] <;>
          (try by_cases hs : s = "") <;> (try by_cases hm : m = "") <;>
            (try by_cases ho : o = "") <;> simp_all

/-- C9: the Description column is the first non-empty value among the
stripped SwymProductInfo description, the meta-description tag content and
the Open Graph description tag content, in that order, and empty when all
three are empty or absent. -/
theorem c9_description_fallback_order (kd : KiwiData) (page : Page)
    (u : Option String) (i : String) :
    getField (processKiwiData kd page u i) "Description" =
      specFirstNonEmpty [page.swymDescription.getD "",
        page.metaDescription.getD "", page.ogDescription.getD ""] := by
  rw [getField_pkd_description]
  exact descriptionOf_eq page

/-! Helper lemmas for the quote-stripping passes. -/

lemma stripQuoteChars_eq_filter (l : List Char) :
    stripQuoteChars l = l.filter (fun c => c ≠ quoteCh ∧ c ≠ apostCh) := by
  unfold stripQuoteChars
  simp only [List.filter_filter]
  apply List.filter_congr
  intro a _
  by_cases h1 : a = quoteCh <;> by_cases h2 : a = apostCh <;> simp [h1, h2]

lemma cleanLine_idem (l : List Char) : cleanLine (cleanLine l) = cleanLine l := by
  simp only [cleanLine, stripQuoteChars_eq_filter, List.filter_filter, Bool.and_self]

lemma quote_not_mem_cleanLine (l : List Char) : quoteCh ∉ cleanLine l := by
  simp [cleanLine, stripQuoteChars_eq_filter, List.mem_filter]

lemma apost_not_mem_cleanLine (l : List Char) : apostCh ∉ cleanLine l := by
  simp [cleanLine, stripQuoteChars_eq_filter, List.mem_filter]

/-- C6 (amended): the file produced by a non-trivial `save_to_csv` call
contains no ASCII double quote and no ASCII apostrophe in any line; the
Unicode right double quote is NOT removed (see the counterexample). -/
theorem c6_sink_strips_ascii_quotes (existing : Option (List (List Char)))
    (records : List (Option Record)) (append : Bool) (h : records ≠ [])
    (content : List (List Char))
    (hc : saveToCsv existing records append = some content) :
    content.all (fun line => decide (quoteCh ∉ line) && decide (apostCh ∉ line)) = true := by
  obtain ⟨X, hX⟩ : ∃ X, content = cleanCsvFile X := by
    unfold saveToCsv at hc
    rw [if_neg h] at hc
    exact ⟨_, (Option.some.inj hc).symm⟩
  rw [hX]
  rw [List.all_eq_true]
  intro line hline
  rw [cleanCsvFile, List.mem_map] at hline
  obtain ⟨l0, _, rfl⟩ := hline
  simp [quote_not_mem_cleanLine l0, apost_not_mem_cleanLine l0]

/-- Witness for C6 (amended): a record whose Name holds an ASCII double
quote and an apostrophe is written without either character. -/
theorem c6_sink_strips_ascii_quotes_witness :
    ((saveToCsv none [some recQuotes] false).getD []).all
      (fun line => decide (quoteCh ∉ line) && decide (apostCh ∉ line)) = true :=
  c6_sink_strips_ascii_quotes none [some recQuotes] false
    (List.cons_ne_nil _ _) _ rfl

/-- C6 counterexample: a record whose Name holds the Unicode right double
quote produces a file that still contains that character, so the sink does
not strip all three quote characters as claimed. -/
theorem c6_counterexample :
    ((saveToCsv none [some recRdq] false).getD []).any
      (fun line => decide (rdqCh ∈ line)) = true := by decide

/-- C10 (amended): the standalone cleaning pass maps each line to itself
with exactly the ASCII double quote and ASCII apostrophe deleted (every
other character, including the Unicode right double quote, is preserved in
order), preserves the number of lines, and is idempotent. -/
theorem c10_clean_idempotent_and_preserving (content : List (List Char)) :
    cleanCsvFile content
      = content.map (fun l => l.filter (fun c => c ≠ quoteCh ∧ c ≠ apostCh)) ∧
    (cleanCsvFile content).length = content.length ∧
    cleanCsvFile (cleanCsvFile content) = cleanCsvFile content := by
  refine ⟨?_, by simp [cleanCsvFile], ?_⟩
  · apply List.map_congr_left
    intro a _
    exact stripQuoteChars_eq_filter a
  · simp only [cleanCsvFile, List.map_map, Function.comp]
    apply List.map_congr_left
    intro a _
    exact cleanLine_idem a

/-- C10 counterexample: the cleaning pass leaves the Unicode right double
quote in place instead of deleting it. -/
theorem c10_counterexample :
    cleanCsvFile [['a', rdqCh, 'b']] = [['a', rdqCh, 'b']] ∧
    cleanCsvFile [['a', rdqCh, 'b']] ≠ [['a', 'b']] := ⟨rfl, by decide⟩

/-! Helper lemmas for the batch pipeline and the sink. -/

lemma processKiwiData_ne_nil (kd : KiwiData) (page : Page) (u : Option String)
    (i : String) : processKiwiData kd page u i ≠ [] :=
  List.cons_ne_nil _ _

lemma setUrl_ne_nil (r : Record) (u : String) (h : r ≠ []) : setUrl r u ≠ [] := by
  unfold setUrl
  split_ifs
  · simp
  · simp [List.map_eq_nil_iff, h]

lemma extractProductData_some_ne_nil (page : Page) (u : Option String) (i : String)
    (r : Record) (h : extractProductData page u i = some r) : r ≠ [] := by
  unfold extractProductData at h
  by_cases hb : page.hasKiwiBlock = true
  · rw [if_pos hb] at h
    have h2 := Option.some.inj h
    rw [← h2]
    exact processKiwiData_ne_nil _ _ _ _
  · rw [if_neg hb] at h
    exact absurd h (by simp)

lemma parseUrl_some_ne_nil (fetch : String → Option Page) (u : String) (i : String)
    (r : Record) (h : parseUrl fetch u i = some r) : r ≠ [] := by
  unfold parseUrl at h
  cases hf : fetch u with
  | none => rw [hf] at h; exact absurd h (by simp)
  | some page =>
    rw [hf] at h
    dsimp only at h
    cases he : extractProductData page (some u) i with
    | none => rw [he] at h; exact absurd h (by simp)
    | some r0 =>
      rw [he] at h
      dsimp only at h
      have hr0 : r0 ≠ [] := extractProductData_some_ne_nil page (some u) i r0 he
      rw [← Option.some.inj h]
      split_ifs
      · exact setUrl_ne_nil r0 u hr0
      · exact hr0

lemma filterMap_id_length {α : Type} (l : List (Option α)) :
    (l.filterMap id).length + l.countP (fun o => o.isNone) = l.length := by
  induction l with
  | nil => rfl
  | cons o t ih =>
    cases o <;> simp [List.filterMap_cons, List.countP_cons] <;> omega

lemma saveToCsv_fresh (existing : Option (List (List Char))) (rs : List Record)
    (h : rs ≠ []) (hr : ∀ r ∈ rs, r ≠ []) :
    saveToCsv existing (rs.map some) false
      = some (cleanLine headerLine ::
          rs.map (fun r => cleanLine (rowOf (cleanProductData r)))) := by
  have hm : rs.map some ≠ [] := by simpa using h
  have hfil : rs.filter (fun r => !decide (r = [])) = rs := by
    rw [List.filter_eq_self]
    intro a ha
    simpa using hr a ha
  rcases existing with _ | old <;>
    simp [saveToCsv, hm, hfil, cleanCsvFile, List.map_map, Function.comp_def]

lemma saveToCsv_append_existing (old : List (List Char)) (rs : List Record)
    (h : rs ≠ []) (hr : ∀ r ∈ rs, r ≠ []) :
    saveToCsv (some old) (rs.map some) true
      = some (cleanCsvFile old ++
          rs.map (fun r => cleanLine (rowOf (cleanProductData r)))) := by
  have hm : rs.map some ≠ [] := by simpa using h
  have hfil : rs.filter (fun r => !decide (r = [])) = rs := by
    rw [List.filter_eq_self]
    intro a ha
    simpa using hr a ha
  simp [saveToCsv, hm, hfil, cleanCsvFile, List.map_map, Function.comp_def]

/-- C7: every URL whose fetch or extraction fails contributes no row, all
URLs are still processed (one slot per URL), the output file is the header
followed by exactly the successful records' rows in original input order,
and the data-row count is the URL count minus the failure count. -/
theorem c7_failed_urls_excluded (fetch : String → Option Page) (ids : Nat → String)
    (urls : List String) (existing : Option (List (List Char))) (h : urls ≠ []) :
    (mainProducts fetch ids urls).length = urls.length ∧
    mainFile fetch ids urls existing =
      some (cleanLine headerLine ::
        ((mainProducts fetch ids urls).filterMap id).map
          (fun r => cleanLine (rowOf (cleanProductData r)))) ∧
    (((mainProducts fetch ids urls).filterMap id).map
        (fun r => cleanLine (rowOf (cleanProductData r)))).length
      = urls.length - (mainProducts fetch ids urls).countP (fun o => o.isNone) := by
  have hlen : (mainProducts fetch ids urls).length = urls.length := by
    simp [mainProducts]
  have hne : mainProducts fetch ids urls ≠ [] := by
    intro hnil
    apply h
    have hlen0 := congrArg List.length hnil
    rw [hlen] at hlen0
    exact List.length_eq_zero.mp hlen0
  have hfil : ((mainProducts fetch ids urls).filterMap id).filter
      (fun r => !decide (r = [])) = (mainProducts fetch ids urls).filterMap id := by
    rw [List.filter_eq_self]
    intro r hr
    rw [List.mem_filterMap] at hr
    obtain ⟨o, ho, hoid⟩ := hr
    rw [mainProducts, List.mem_map] at ho
    obtain ⟨iu, _, rfl⟩ := ho
    simpa using parseUrl_some_ne_nil fetch iu.2 (ids iu.1) r hoid
  refine ⟨hlen, ?_, ?_⟩
  · rcases existing with _ | old <;>
      simp [mainFile, hne, saveToCsv, hfil, cleanCsvFile, List.map_map,
        Function.comp_def]
  · rw [List.length_map]
    have hsum := filterMap_id_length (mainProducts fetch ids urls)
    omega

/-- Witness for C7 on two URLs that both fail to fetch: the file is just
the header, zero data rows, both slots processed. -/
theorem c7_failed_urls_excluded_witness :
    (mainProducts fetchNone idsConst ["u1", "u2"]).length
      = (["u1", "u2"] : List String).length ∧
    mainFile fetchNone idsConst ["u1", "u2"] none =
      some (cleanLine headerLine ::
        ((mainProducts fetchNone idsConst ["u1", "u2"]).filterMap id).map
          (fun r => cleanLine (rowOf (cleanProductData r)))) ∧
    (((mainProducts fetchNone idsConst ["u1", "u2"]).filterMap id).map
        (fun r => cleanLine (rowOf (cleanProductData r)))).length
      = (["u1", "u2"] : List String).length
        - (mainProducts fetchNone idsConst ["u1", "u2"]).countP (fun o => o.isNone) :=
  c7_failed_urls_excluded fetchNone idsConst ["u1", "u2"] none (by decide)

/-- C8: writing a non-empty batch with append off and then another
non-empty batch with append on yields exactly one header row followed by
the rows of the first batch and then the second; the header is written
once, on the fresh write only. -/
theorem c8_append_composition (rs1 rs2 : List Record)
    (existing : Option (List (List Char))) (h1 : rs1 ≠ []) (h2 : rs2 ≠ [])
    (hr1 : ∀ r ∈ rs1, r ≠ []) (hr2 : ∀ r ∈ rs2, r ≠ []) :
    saveToCsv (saveToCsv existing (rs1.map some) false) (rs2.map some) true =
      some (cleanLine headerLine ::
        (rs1.map (fun r => cleanLine (rowOf (cleanProductData r))) ++
         rs2.map (fun r => cleanLine (rowOf (cleanProductData r))))) ∧
    (cleanLine headerLine ::
        (rs1.map (fun r => cleanLine (rowOf (cleanProductData r))) ++
         rs2.map (fun r => cleanLine (rowOf (cleanProductData r))))).length
      = 1 + rs1.length + rs2.length := by
  constructor
  · rw [saveToCsv_fresh existing rs1 h1 hr1,
      saveToCsv_append_existing _ rs2 h2 hr2]
    have hclean : cleanCsvFile (cleanLine headerLine ::
        rs1.map (fun r => cleanLine (rowOf (cleanProductData r))))
        = cleanLine headerLine ::
          rs1.map (fun r => cleanLine (rowOf (cleanProductData r))) := by
      simp only [cleanCsvFile, List.map_cons, cleanLine_idem, List.map_map]
      refine congrArg _ (List.map_congr_left ?_)
      intro a _
      exact cleanLine_idem _
    rw [hclean]
    rfl
  · simp [Nat.add_comm, Nat.add_assoc, Nat.add_left_comm]

/-- Witness for C8: one record then one record gives a header and two
data rows. -/
theorem c8_append_composition_witness :
    saveToCsv (saveToCsv none ([recQuotes].map some) false) ([recRdq].map some) true =
      some (cleanLine headerLine ::
        ([recQuotes].map (fun r => cleanLine (rowOf (cleanProductData r))) ++
         [recRdq].map (fun r => cleanLine (rowOf (cleanProductData r))))) ∧
    (cleanLine headerLine ::
        ([recQuotes].map (fun r => cleanLine (rowOf (cleanProductData r))) ++
         [recRdq].map (fun r => cleanLine (rowOf (cleanProductData r))))).length
      = 1 + ([recQuotes] : List Record).length + ([recRdq] : List Record).length :=
  c8_append_composition [recQuotes] [recRdq] none (by decide) (by decide)
    (by decide) (by decide)
